import Mathlib

/-!
Formal model of the zrpc RPC library (registry, discovery, client, server),
shallowly embedded in Lean 4.  Go strings are modelled as lists of
characters, Go `time.Time` / `time.Duration` as natural numbers (an instant
is a tick count; `t.Add(d).After(now)` becomes `now < t + d`), Go maps as
association lists whose well-formedness (key distinctness) is carried as a
hypothesis where it matters, and goroutine interactions as explicit small
step transition systems.  Fallible Go functions return `Except` or an
`Option` error component, mirroring the `(value, err)` convention.
-/

namespace ZRPC

/-- Go strings modelled as lists of characters. -/
abbrev GoStr := List Char

/-- Decidable equality for `Except`, needed to evaluate the models on
concrete inputs. -/
def exceptEqDec {ε α : Type} [DecidableEq ε] [DecidableEq α] :
    (a b : Except ε α) → Decidable (a = b)
  | .error e, .error f =>
    if h : e = f then .isTrue (congrArg Except.error h)
    else .isFalse (fun k => h (by injection k))
  | .error _, .ok _ => .isFalse (fun k => Except.noConfusion k)
  | .ok _, .error _ => .isFalse (fun k => Except.noConfusion k)
  | .ok a, .ok b =>
    if h : a = b then .isTrue (congrArg Except.ok h)
    else .isFalse (fun k => h (by injection k))

instance {ε α : Type} [DecidableEq ε] [DecidableEq α] : DecidableEq (Except ε α) :=
  exceptEqDec

/-- Counting occurrences of a Go string uses the equality coming from
decidable equality, so that counts line up with the permutation and
duplicate-freeness lemmas. -/
instance (priority := 2000) : BEq GoStr := instBEqOfDecidableEq

/-- Model of Go `strings.Split(s, sep)` for a one-character separator `sep`
(the only shape the repository uses: `","` and `"@"`).  As in Go,
`strings.Split("", sep) = [""]`, and splitting produces `count(sep) + 1`
pieces. -/
def goSplit (sep : Char) : GoStr → List GoStr
  | [] => [[]]
  | c :: rest =>
    if c = sep then [] :: goSplit sep rest
    else
      match goSplit sep rest with
      | [] => [[c]]
      | p :: ps => (c :: p) :: ps

/-- Model of Go `strings.TrimSpace`: remove leading and trailing
whitespace. -/
def trimSpace (s : GoStr) : GoStr :=
  ((s.dropWhile Char.isWhitespace).reverse.dropWhile Char.isWhitespace).reverse

/-- Model of Go `strings.Join(elems, sep)` for a one-character separator. -/
def goJoin (sep : Char) : List GoStr → GoStr
  | [] => []
  | [x] => x
  | x :: y :: xs => x ++ sep :: goJoin sep (y :: xs)

/-- Index of the last occurrence of a character, modelling Go
`strings.LastIndex` (with `none` for Go result `-1`). -/
def lastIndexOfChar (ch : Char) : GoStr → Option Nat
  | [] => none
  | c :: rest =>
    match lastIndexOfChar ch rest with
    | some i => some (i + 1)
    | none => if c = ch then some 0 else none

/-! ## Registry (file `part_000`, package `registry`) -/

/-- State of `ZRegistry`.  The Go field `servers : map[string]*ServerItem`
is modelled as an association list from the address to the `start` instant
of its `ServerItem` (the `Addr` field of a `ServerItem` always equals its
key).  `timeout` is the service-expiry duration. -/
structure ZRegistry where
  timeout : Nat
  servers : List (GoStr × Nat)
deriving DecidableEq, Repr

/-- Model of `registry.New`. -/
def ZRegistry.New (timeout : Nat) : ZRegistry :=
  { timeout := timeout, servers := [] }

/-- The alive predicate of `aliveServers`:
`r.timeout == 0 || s.start.Add(r.timeout).After(time.Now())`. -/
def aliveB (timeout now start : Nat) : Bool :=
  timeout == 0 || decide (now < start + timeout)

/-- Association-list update modelling `putServer`: refresh `start` when the
address is present, insert a fresh item otherwise. -/
def ZRegistry.putServer (r : ZRegistry) (addr : GoStr) (now : Nat) : ZRegistry :=
  if r.servers.any (fun p => p.1 = addr) then
    { r with servers := r.servers.map (fun p => if p.1 = addr then (addr, now) else p) }
  else
    { r with servers := r.servers ++ [(addr, now)] }

/-- Model of `ZRegistry.aliveServers`: collect the addresses of the entries
that satisfy the alive predicate, delete the others from the map, and
return the alive addresses sorted ascending (`sort.Strings`).  Returns the
sorted list together with the updated registry. -/
def ZRegistry.aliveServers (r : ZRegistry) (now : Nat) : List GoStr × ZRegistry :=
  let keep := r.servers.filter (fun p => aliveB r.timeout now p.2)
  (List.insertionSort (· ≤ ·) (keep.map Prod.fst), { r with servers := keep })

/-- Observable outcome of one call to the registry HTTP handler. -/
inductive RegistryHttpOut where
  | servers (hdr : GoStr)
  | ok
  | status (code : Nat)
deriving DecidableEq, Repr

/-- Model of `ZRegistry.ServeHTTP`.  `xZrpcServer` is the value of the
request header `X-Zrpc-Server` (empty when absent, as in Go).  On GET the
response carries header `X-Zrpc-Servers` whose value is the comma-joined
alive list; on POST with empty header the handler answers 500; other
methods answer 405. -/
def ZRegistry.ServeHTTP (r : ZRegistry) (now : Nat) (method xZrpcServer : GoStr) :
    RegistryHttpOut × ZRegistry :=
  if method = "GET".toList then
    let (al, r2) := r.aliveServers now
    (.servers (goJoin ',' al), r2)
  else if method = "POST".toList then
    if xZrpcServer = [] then (.status 500, r)
    else (.ok, r.putServer xZrpcServer now)
  else (.status 405, r)

/-! ## Discovery (file `part_002` and the `MultiServersDiscovery` code of
`README.md`, package `xclient`) -/

/-- Load-balancing mode. -/
inductive SelectMode where
  | RandomSelect
  | RoundRobinSelect
deriving DecidableEq, Repr

/-- Error string of an empty server list. -/
def noServersErr : GoStr := "rpc discovery: no available servers".toList

/-- Error string of an unknown selection mode. -/
def notSupportedModeErr : GoStr := "rpc discovery: not supported select mode".toList

/-- State of `MultiServersDiscovery` (the random source `r` is modelled by
passing the drawn number to `Get` explicitly). -/
structure MultiServersDiscovery where
  servers : List GoStr
  index : Nat
deriving DecidableEq, Repr

/-- Model of `MultiServersDiscovery.Get`.  `rnd` models the value drawn
from `d.r.Intn(n)` (reduced modulo `n` to keep the model total).  In
`RoundRobinSelect` mode the served address is `servers[index % n]` and the
new index is `(index + 1) % n`. -/
def MultiServersDiscovery.Get (d : MultiServersDiscovery) (mode : SelectMode) (rnd : Nat) :
    Except GoStr (GoStr × MultiServersDiscovery) :=
  if h : d.servers.length = 0 then .error noServersErr
  else
    match mode with
    | .RandomSelect =>
        .ok (d.servers.get ⟨rnd % d.servers.length, Nat.mod_lt _ (Nat.pos_of_ne_zero h)⟩, d)
    | .RoundRobinSelect =>
        .ok (d.servers.get ⟨d.index % d.servers.length, Nat.mod_lt _ (Nat.pos_of_ne_zero h)⟩,
             { d with index := (d.index + 1) % d.servers.length })

/-- Runs `m` consecutive `Get(RoundRobinSelect)` calls, collecting the
returned addresses (errors stop the run; they only occur on an empty
list). -/
def rrRun : Nat → MultiServersDiscovery → List GoStr × MultiServersDiscovery
  | 0, d => ([], d)
  | m + 1, d =>
    match d.Get .RoundRobinSelect 0 with
    | .error _ => ([], d)
    | .ok (s, d2) =>
      let (rest, dEnd) := rrRun m d2
      (s :: rest, dEnd)

/-- Pure description of the address served by the i-th round-robin call
starting from index `idx` (used to state rotation order). -/
def rrNth (servers : List GoStr) (idx i : Nat) : GoStr :=
  servers.getD ((idx + i) % servers.length) []

/-- State of `ZRegistryDiscovery`.  The embedded `MultiServersDiscovery`
is flattened into the `servers` and `index` fields. -/
structure ZRegistryDiscovery where
  servers : List GoStr
  index : Nat
  registry : GoStr
  timeout : Nat
  lastUpdate : Nat
deriving DecidableEq, Repr

/-- `defaultUpdateTimeout = time.Second * 10`, in nanoseconds. -/
def defaultUpdateTimeout : Nat := 10000000000

/-- Model of `NewZRegistryDiscovery` (the zero `time.Time` is instant 0). -/
def NewZRegistryDiscovery (registerAddr : GoStr) (timeout : Nat) : ZRegistryDiscovery :=
  { servers := [], index := 0, registry := registerAddr,
    timeout := if timeout = 0 then defaultUpdateTimeout else timeout,
    lastUpdate := 0 }

/-- The server-list parsing performed by `Refresh` on the value of the
response header `X-Zrpc-Servers`: split on `','`, trim whitespace, keep
the non-empty pieces. -/
def parseServerList (hdr : GoStr) : List GoStr :=
  (goSplit ',' hdr).filterMap (fun s => if trimSpace s = [] then none else some (trimSpace s))

/-- Model of `ZRegistryDiscovery.Refresh`.  `httpGet` is the outcome of
`http.Get(d.registry)`: either a transport error or the value of the
response header `X-Zrpc-Servers` (empty when absent).  The result is the
new state, the returned error if any, and whether an HTTP GET was
performed. -/
def ZRegistryDiscovery.Refresh (d : ZRegistryDiscovery) (now : Nat)
    (httpGet : Except GoStr GoStr) : ZRegistryDiscovery × Option GoStr × Bool :=
  if now < d.lastUpdate + d.timeout then (d, none, false)
  else
    match httpGet with
    | .error e => (d, some e, true)
    | .ok hdr => ({ d with servers := parseServerList hdr, lastUpdate := now }, none, true)

/-- Model of `ZRegistryDiscovery.Get`: refresh first, propagate its error,
then delegate to `MultiServersDiscovery.Get`.  The final component records
whether the refresh performed an HTTP GET. -/
def ZRegistryDiscovery.Get (d : ZRegistryDiscovery) (now : Nat)
    (httpGet : Except GoStr GoStr) (mode : SelectMode) (rnd : Nat) :
    ZRegistryDiscovery × Except GoStr GoStr × Bool :=
  match d.Refresh now httpGet with
  | (d2, some e, g) => (d2, .error e, g)
  | (d2, none, g) =>
    match MultiServersDiscovery.Get ⟨d2.servers, d2.index⟩ mode rnd with
    | .error e => (d2, .error e, g)
    | .ok (s, m) => ({ d2 with servers := m.servers, index := m.index }, .ok s, g)

/-! ## Client (file `part_001`, package `zrpc`) -/

/-- The `ErrShutdown` error string. -/
def ErrShutdown : GoStr := "connection is shut down".toList

/-- Client-side view of a `Call`: its sequence number, service method and
`Error` field (`none` models a nil error).  `Args`, `Reply` and the `Done`
channel value are not part of the state; `done()` signals are modelled as
emitted events. -/
structure Call where
  Seq : Nat
  ServiceMethod : GoStr
  Err : Option GoStr
deriving DecidableEq, Repr

/-- The mutex-protected state of a `Client`. -/
structure Client where
  seq : Nat
  pending : List (Nat × Call)
  closing : Bool
  shutdown : Bool
deriving DecidableEq, Repr

/-- Model of `newClientCodec`: `seq` starts at 1 (0 means an invalid
call), `pending` empty. -/
def newClientCodec : Client :=
  { seq := 1, pending := [], closing := false, shutdown := false }

/-- Association-list insert modelling `client.pending[call.Seq] = call`. -/
def mapInsert (m : List (Nat × Call)) (k : Nat) (v : Call) : List (Nat × Call) :=
  if m.any (fun p => p.1 = k) then
    m.map (fun p => if p.1 = k then (k, v) else p)
  else m ++ [(k, v)]

/-- Model of `registerCall`: refuse with `ErrShutdown` when closing or
shut down, otherwise assign the current counter as the call's `Seq`,
insert it into `pending` and increment the counter.  Returns the assigned
sequence number and the new state. -/
def registerCall (c : Client) (call : Call) : Except GoStr (Nat × Client) :=
  if c.closing || c.shutdown then .error ErrShutdown
  else
    .ok (c.seq,
      { c with pending := mapInsert c.pending c.seq { call with Seq := c.seq },
               seq := c.seq + 1 })

/-- Model of `removeCall`: look the call up and delete its entry. -/
def removeCall (c : Client) (seq : Nat) : Option Call × Client :=
  ((c.pending.find? (fun p => p.1 = seq)).map Prod.snd,
   { c with pending := c.pending.filter (fun p => ¬ p.1 = seq) })

/-- Model of `terminateCalls`: set `shutdown`, assign `err` to every
pending call and signal its `done` channel.  The second component lists
the `done()` signals in map order. -/
def terminateCalls (c : Client) (err : GoStr) : Client × List Call :=
  ({ c with shutdown := true,
            pending := c.pending.map (fun p => (p.1, { p.2 with Err := some err })) },
   c.pending.map (fun p => { p.2 with Err := some err }))

/-- Model of `Client.Close`: a second close returns `ErrShutdown`. -/
def Client.Close (c : Client) : Except GoStr Client :=
  if c.closing then .error ErrShutdown else .ok { c with closing := true }

/-- One decoded incoming message of the client receive loop: either a
header-read failure, or a header `(seq, herr)` followed by the outcome of
the body read performed in the selected branch. -/
inductive ReadEvent where
  | headerErr (e : GoStr)
  | reply (seq : Nat) (herr : GoStr) (body : Except GoStr Unit)
deriving Repr

/-- One iteration of the `receive` loop: returns the new client state, the
`done()` signals emitted in this iteration, and the loop-terminating error
if this iteration set one. -/
def receiveStep (c : Client) (ev : ReadEvent) : Client × List Call × Option GoStr :=
  match ev with
  | .headerErr e => (c, [], some e)
  | .reply seq herr body =>
    match removeCall c seq with
    | (none, c2) =>
      match body with
      | .ok _ => (c2, [], none)
      | .error e => (c2, [], some e)
    | (some call, c2) =>
      if herr = [] then
        match body with
        | .ok _ => (c2, [{ call with Err := none }], none)
        | .error e =>
          (c2, [{ call with Err := some ("reading body ".toList ++ e) }], some e)
      else
        match body with
        | .ok _ => (c2, [{ call with Err := some herr }], none)
        | .error e => (c2, [{ call with Err := some herr }], some e)

/-- Runs the receive loop over a list of incoming messages until an
iteration sets the loop error (the loop condition is `err == nil`).
Returns the state, the emitted `done()` signals and the terminating error
if one was reached within the trace. -/
def receiveRun : Client → List ReadEvent → Client × List Call × Option GoStr
  | c, [] => (c, [], none)
  | c, ev :: rest =>
    match receiveStep c ev with
    | (c2, outs, some e) => (c2, outs, some e)
    | (c2, outs, none) =>
      let (cEnd, outs2, r) := receiveRun c2 rest
      (cEnd, outs ++ outs2, r)

/-- Model of `receive`: run the loop; when it exits with an error, call
`terminateCalls` with that error (appending its `done()` signals). -/
def receive (c : Client) (evs : List ReadEvent) : Client × List Call :=
  match receiveRun c evs with
  | (c2, outs, some e) =>
    let (c3, outs2) := terminateCalls c2 e
    (c3, outs ++ outs2)
  | (c2, outs, none) => (c2, outs)

/-- One state-changing transition of a client: a successful
`registerCall`, a `removeCall`, a `terminateCalls` or a successful
`Close`.  Failed `registerCall` / `Close` leave the state unchanged. -/
inductive ClientStep : Client → Client → Prop where
  | register (c : Client) (call : Call) (s : Nat) (c2 : Client) :
      registerCall c call = .ok (s, c2) → ClientStep c c2
  | remove (c : Client) (seq : Nat) : ClientStep c (removeCall c seq).2
  | terminate (c : Client) (err : GoStr) : ClientStep c (terminateCalls c err).1
  | close (c c2 : Client) : Client.Close c = .ok c2 → ClientStep c c2

/-- Reachability between client states by any number of transitions. -/
def ClientReach : Client → Client → Prop := Relation.ReflTransGen ClientStep

/-- The argument `done` of `Client.Go`: either nil or a channel of a given
capacity. -/
inductive DoneArg where
  | nil
  | chan (capacity : Nat)
deriving DecidableEq, Repr

/-- Outcome of the `done`-channel handling at the top of `Client.Go`:
either `log.Panic` fires, or the call proceeds using a channel of the
given capacity (`fresh` records that `Go` allocated it itself). -/
inductive GoDoneOutcome where
  | panics (msg : GoStr)
  | use (capacity : Nat) (fresh : Bool)
deriving DecidableEq, Repr

/-- Model of the `done`-channel normalisation of `Client.Go`: a nil
channel is replaced by a fresh buffered channel of capacity 10; a non-nil
unbuffered channel (capacity 0) is a loud programming error. -/
def goDoneChannel : DoneArg → GoDoneOutcome
  | .nil => .use 10 true
  | .chan 0 => .panics ("rpc client: done channel is unbuffered".toList)
  | .chan (n + 1) => .use (n + 1) false

/-- The connection action chosen by `XDial` (constructed, not run): the
wrong-format error is returned before any connection attempt. -/
inductive XDialResult where
  | wrongFormat (msg : GoStr)
  | dialHTTP (network addr : GoStr)
  | dial (network addr : GoStr)
deriving DecidableEq, Repr

/-- Model of `XDial`: split `rpcAddr` on `'@'`; any piece count other than
2 is the wrong-format error; protocol `http` dials HTTP-CONNECT over tcp;
any other protocol is used as the transport name of a raw dial. -/
def XDial (rpcAddr : GoStr) : XDialResult :=
  match goSplit '@' rpcAddr with
  | [protocol, addr] =>
    if protocol = "http".toList then .dialHTTP ("tcp".toList) addr
    else .dial protocol addr
  | _ =>
    .wrongFormat ("rpc client err: wrong format \x27".toList ++ rpcAddr ++
      "\x27, expect protocol@addr".toList)

/-! ## Server (file `part_003`, package `zrpc`) -/

/-- The wire header (`codec.Header`). -/
structure Header where
  ServiceMethod : GoStr
  Seq : Nat
  Error : GoStr
deriving DecidableEq, Repr

/-- The server's `serviceMap`, as an association list from service name to
the names of its registered methods (the reflection content of
`methodType` is irrelevant to dispatch). -/
abbrev ServiceMap := List (GoStr × List GoStr)

/-- Model of `findService`: split `serviceMethod` at the last dot, then
look the service and the method up. -/
def findService (smap : ServiceMap) (serviceMethod : GoStr) : Except GoStr Unit :=
  match lastIndexOfChar '.' serviceMethod with
  | none =>
    .error ("rpc server: service/method request ill-formed: ".toList ++ serviceMethod)
  | some dot =>
    let serviceName := serviceMethod.take dot
    let methodName := serviceMethod.drop (dot + 1)
    match smap.find? (fun p => p.1 = serviceName) with
    | none => .error ("rpc server: can\x27t find service ".toList ++ serviceName)
    | some sv =>
      if methodName ∈ sv.2 then .ok ()
      else .error ("rpc server: can\x27t find method ".toList ++ methodName)

/-- One codec frame on the incoming half of a connection.  Each client
request is one header frame followed by one body frame (§4.1: framing is
self-delimited, each write produces exactly one of each).  `body false`
models a body whose decode into the argument value fails. -/
inductive Frame where
  | header (h : Header)
  | body (ok : Bool)
deriving DecidableEq, Repr

/-- Model of `readRequestHeader`: decode the next frame as a header.  An
exhausted stream is EOF; a body frame decoded as a header is a codec
decoding error (terminal for the connection). -/
def readRequestHeader : List Frame → Except GoStr (Header × List Frame)
  | [] => .error ("EOF".toList)
  | .header h :: rest => .ok (h, rest)
  | .body _ :: _ => .error ("rpc server: header decode error".toList)

/-- Model of `readRequest`, with the Go `(req, err)` pair as
`(Option Header × Option GoStr)` plus the remaining stream.  When
`findService` fails the function returns at once: the body frame of the
request is NOT consumed. -/
def readRequest (smap : ServiceMap) (conn : List Frame) :
    (Option Header × Option GoStr) × List Frame :=
  match readRequestHeader conn with
  | .error e => ((none, some e), conn.drop 1)
  | .ok (h, rest) =>
    match findService smap h.ServiceMethod with
    | .error e => ((some h, some e), rest)
    | .ok _ =>
      match rest with
      | .body true :: rest2 => ((some h, none), rest2)
      | .body false :: rest2 =>
        ((some h, some ("rpc server: read body error".toList)), rest2)
      | _ => ((some h, some ("EOF".toList)), rest)

/-- One response written on a connection: the header it carries and
whether its body is the `invalidRequest` placeholder. -/
structure Response where
  h : Header
  invalidBody : Bool
deriving DecidableEq, Repr

/-- The serve loop of `serveCodec`, with explicit fuel (each iteration
consumes at least one frame, so `conn.length` fuel is enough).  Returns
the error responses sent synchronously by the loop and the headers of the
requests handed to concurrent `handleRequest` goroutines, in reading
order. -/
def serveCodecGo (smap : ServiceMap) : Nat → List Frame → List Response × List Header
  | 0, _ => ([], [])
  | fuel + 1, conn =>
    match readRequest smap conn with
    | ((none, _), _) => ([], [])
    | ((some h, some e), rest) =>
      let (rs, hs) := serveCodecGo smap fuel rest
      ({ h := { h with Error := e }, invalidBody := true } :: rs, hs)
    | ((some h, none), rest) =>
      let (rs, hs) := serveCodecGo smap fuel rest
      (rs, h :: hs)

/-- Model of `serveCodec` on a finite incoming stream. -/
def serveCodec (smap : ServiceMap) (conn : List Frame) : List Response × List Header :=
  serveCodecGo smap conn.length conn

/-- The timeout error synthesised by `handleRequest`; `d` is the formatted
duration (Go `%s` of a `time.Duration`, e.g. `100ms`). -/
def timeoutErrMsg (d : GoStr) : GoStr :=
  "rpc server: request handle timeout: expect within ".toList ++ d

/-- The error response sent by the timer branch of `handleRequest`. -/
def timeoutResp (h : Header) (d : GoStr) : Response :=
  { h := { h with Error := timeoutErrMsg d }, invalidBody := true }

/-- The response the handler goroutine sends after `called`: an error
response when `svc.call` failed, the reply value otherwise. -/
def handlerResp (h : Header) (herr : Option GoStr) : Response :=
  match herr with
  | some e => { h := { h with Error := e }, invalidBody := true }
  | none => { h := h, invalidBody := false }

/-- Program counter of the `handleRequest` parent (the `timeout > 0`
branch): at the select over `called` and the timer, waiting on `sent`, or
returned. -/
inductive MainPC where
  | select
  | waitSent
  | done
deriving DecidableEq, Repr

/-- Program counter of the handler goroutine: before `svc.call` returns,
blocked sending on `called`, between the rendezvous and its
`sendResponse`, blocked sending on `sent`, or finished. -/
inductive GoPC where
  | start
  | calledSend
  | afterCalled
  | sentSend
  | done
deriving DecidableEq, Repr

/-- Joint state of one `handleRequest` invocation with `timeout > 0`:
both program counters and the responses written so far on the
connection for this request. -/
structure HRState where
  main : MainPC
  goro : GoPC
  sent : List Response
deriving DecidableEq, Repr

/-- Initial state of `handleRequest`: the parent sits at the select, the
goroutine is running `svc.call`, nothing has been sent. -/
def hrInit : HRState := { main := .select, goro := .start, sent := [] }

/-- Interleaving semantics of `handleRequest` with `timeout > 0`, for a
fixed request header `h`, formatted timeout `d` and handler outcome
`herr`.  Both `called` and `sent` are unbuffered channels: a send only
happens together with the matching receive (rendezvous); a blocked sender
stays blocked.  The timer can fire whenever the parent still sits at the
select. -/
inductive HRStep (h : Header) (d : GoStr) (herr : Option GoStr) : HRState → HRState → Prop where
  | callReturns (m : MainPC) (r : List Response) :
      HRStep h d herr ⟨m, .start, r⟩ ⟨m, .calledSend, r⟩
  | rendezvousCalled (r : List Response) :
      HRStep h d herr ⟨.select, .calledSend, r⟩ ⟨.waitSent, .afterCalled, r⟩
  | timerFires (g : GoPC) (r : List Response) :
      HRStep h d herr ⟨.select, g, r⟩ ⟨.done, g, r ++ [timeoutResp h d]⟩
  | goroutineSends (m : MainPC) (r : List Response) :
      HRStep h d herr ⟨m, .afterCalled, r⟩ ⟨m, .sentSend, r ++ [handlerResp h herr]⟩
  | rendezvousSent (r : List Response) :
      HRStep h d herr ⟨.waitSent, .sentSend, r⟩ ⟨.done, .done, r⟩

/-- Reachability in the `handleRequest` transition system. -/
def HRReach (h : Header) (d : GoStr) (herr : Option GoStr) : HRState → HRState → Prop :=
  Relation.ReflTransGen (HRStep h d herr)

/-! ## Concrete sample values used to evaluate the models -/

/-- A client-side call before registration (`Seq` not yet assigned). -/
def sampleCall : Call := { Seq := 0, ServiceMethod := "Foo.Sum".toList, Err := none }

/-- The client after registering one call on a fresh client. -/
def sampleC1 : Client :=
  { seq := 2, pending := [(1, { sampleCall with Seq := 1 })],
    closing := false, shutdown := false }

/-- The client after registering a second call. -/
def sampleC2 : Client :=
  { seq := 3,
    pending := [(1, { sampleCall with Seq := 1 }), (2, { sampleCall with Seq := 2 })],
    closing := false, shutdown := false }

/-- A registered pending call with sequence number 1. -/
def c4Call : Call := { Seq := 1, ServiceMethod := "Foo.Sum".toList, Err := none }

/-- A client with one outstanding call, as after one `registerCall`. -/
def c4Client : Client :=
  { seq := 2, pending := [(1, c4Call)], closing := false, shutdown := false }

/-- A service map with one service `Foo` exposing one method `Sum`. -/
def arithMap : ServiceMap := [("Foo".toList, ["Sum".toList])]

/-- A request header naming an unregistered service. -/
def c1Header1 : Header := { ServiceMethod := "Bar.Sum".toList, Seq := 7, Error := [] }

/-- A request header naming the registered method `Foo.Sum`. -/
def c1Header2 : Header := { ServiceMethod := "Foo.Sum".toList, Seq := 8, Error := [] }

/-- An incoming stream carrying two framed requests, the first for an
unknown service, the second for a registered one. -/
def c1Conn : List Frame :=
  [.header c1Header1, .body true, .header c1Header2, .body true]

/-- An incoming stream carrying two well-formed requests for the
registered method. -/
def c1ConnGood : List Frame :=
  [.header c1Header2, .body true, .header c1Header2, .body true]

/-- A sample registry: address `b` heart-beaten at instant 0, address `a`
at instant 5, expiry 10. -/
def sampleRegistry : ZRegistry :=
  { timeout := 10, servers := [("b".toList, 0), ("a".toList, 5)] }

/-- A sample registry discovery with refresh interval 10, never updated. -/
def sampleZRD : ZRegistryDiscovery := NewZRegistryDiscovery ("reg".toList) 10

/-- The client-state invariant of claim C3: the counter started at 1 and
every pending key is strictly below it. -/
def ClientInv (c : Client) : Prop :=
  1 ≤ c.seq ∧ ∀ p ∈ c.pending, p.1 < c.seq

/-- The error response the serve loop sends for the unknown-service
request of `c1Conn`: the original header with its `Error` field set and
the `invalidRequest` placeholder body. -/
def c1ErrResp : Response where
  h := { c1Header1 with Error := "rpc server: can\x27t find service Bar".toList }
  invalidBody := true

/-- A request header used to instantiate the handle-timeout machine. -/
def hrHeader : Header := { ServiceMethod := "Foo.Sum".toList, Seq := 5, Error := [] }

/-! ## Theorems -/

/-- Splitting never produces an empty list of pieces. -/
theorem goSplit_ne_nil (sep : Char) (l : GoStr) : goSplit sep l ≠ [] := by
  cases l with
  | nil => simp [goSplit]
  | cons c rest =>
    by_cases h : c = sep
    · simp [goSplit, h]
    · simp only [goSplit, if_neg h]
      cases goSplit sep rest <;> simp

/-- Splitting on a separator yields one piece more than the number of
separator occurrences, as in Go `strings.Split`. -/
theorem goSplit_length (sep : Char) (l : GoStr) :
    (goSplit sep l).length = l.count sep + 1 := by
  induction l with
  | nil => simp [goSplit]
  | cons c rest ih =>
    by_cases h : c = sep
    · simp [goSplit, h, List.count_cons, ih]
    · have hc : (c == sep) = false := by simpa using h
      rcases hs : goSplit sep rest with _ | ⟨p, ps⟩
      · exact absurd hs (goSplit_ne_nil sep rest)
      · rw [hs] at ih
        simp only [goSplit, if_neg h, hs, List.length_cons, List.count_cons, hc,
          if_false, Nat.add_zero]
        simp only [List.length_cons] at ih
        simp only [Bool.false_eq_true, if_false]
        omega

/-- C8: for every call to `Client.Go` with `done == nil`, `Go` allocates a
fresh buffered channel of capacity 10 and proceeds with it (it does not
fail); the loud failure (`log.Panic`) fires exactly for a non-nil channel
of capacity 0. -/
theorem go_done_channel_spec :
    goDoneChannel .nil = .use 10 true ∧
    ∀ a : DoneArg, (∃ m, goDoneChannel a = .panics m) ↔ a = .chan 0 := by
  refine ⟨rfl, fun a => ⟨?_, ?_⟩⟩
  · rintro ⟨m, hm⟩
    cases a with
    | nil => simp [goDoneChannel] at hm
    | chan n =>
      cases n with
      | zero => rfl
      | succ k => simp [goDoneChannel] at hm
  · rintro rfl
    exact ⟨_, rfl⟩

/-- C9: `XDial` returns the wrong-format error, without attempting any
connection, whenever the number of `@` occurrences in `rpcAddr` is not
exactly one (the split then has a piece count other than two). -/
theorem xdial_wrong_format (rpcAddr : GoStr) (h : rpcAddr.count '@' ≠ 1) :
    XDial rpcAddr =
      .wrongFormat ("rpc client err: wrong format \x27".toList ++ rpcAddr ++
        "\x27, expect protocol@addr".toList) := by
  have hl : (goSplit '@' rpcAddr).length = rpcAddr.count '@' + 1 :=
    goSplit_length '@' rpcAddr
  rcases hs : goSplit '@' rpcAddr with _ | ⟨p, _ | ⟨a, _ | ⟨b, rest⟩⟩⟩
  · simp [XDial, hs]
  · simp [XDial, hs]
  · exfalso
    apply h
    rw [hs] at hl
    simpa using hl.symm
  · simp [XDial, hs]

/-- Witness for C9: an address with two `@` characters and a valid
protocol prefix is rejected with the wrong-format error. -/
theorem xdial_wrong_format_witness :
    ("http@a@b".toList).count '@' ≠ 1 ∧
    XDial ("http@a@b".toList) =
      .wrongFormat ("rpc client err: wrong format \x27".toList ++ "http@a@b".toList ++
        "\x27, expect protocol@addr".toList) :=
  ⟨by decide, xdial_wrong_format ("http@a@b".toList) (by decide)⟩

/-- The listed component of `aliveServers`, unfolded. -/
theorem aliveServers_fst (r : ZRegistry) (now : Nat) :
    (r.aliveServers now).1 =
      List.insertionSort (· ≤ ·)
        ((r.servers.filter (fun p => aliveB r.timeout now p.2)).map Prod.fst) := rfl

/-- The registry state left by `aliveServers`, unfolded. -/
theorem aliveServers_snd (r : ZRegistry) (now : Nat) :
    (r.aliveServers now).2.servers =
      r.servers.filter (fun p => aliveB r.timeout now p.2) := rfl

/-- C5: a GET on the registry returns, in the `X-Zrpc-Servers` header, the
comma-joined, strictly ascending list of exactly those addresses whose
entry satisfies `timeout == 0 OR last_seen + timeout > now`, and every
entry failing that predicate is deleted from the server map during the
same listing. -/
theorem registry_get_alive (r : ZRegistry) (now : Nat) (x : GoStr)
    (hnd : (r.servers.map Prod.fst).Nodup) :
    (r.ServeHTTP now ("GET".toList) x).1 =
        .servers (goJoin ',' (r.aliveServers now).1) ∧
    (r.ServeHTTP now ("GET".toList) x).2 = (r.aliveServers now).2 ∧
    (∀ a, a ∈ (r.aliveServers now).1 ↔
        ∃ st, (a, st) ∈ r.servers ∧ aliveB r.timeout now st = true) ∧
    List.Pairwise (· < ·) (r.aliveServers now).1 ∧
    (∀ a st, (a, st) ∈ (r.aliveServers now).2.servers ↔
        (a, st) ∈ r.servers ∧ aliveB r.timeout now st = true) := by
  refine ⟨?_, ?_, ?_, ?_, ?_⟩
  · simp [ZRegistry.ServeHTTP, ZRegistry.aliveServers]
  · simp [ZRegistry.ServeHTTP, ZRegistry.aliveServers]
  · intro a
    rw [aliveServers_fst, List.Perm.mem_iff (List.perm_insertionSort _ _)]
    constructor
    · intro ha
      rcases List.mem_map.mp ha with ⟨p, hp, rfl⟩
      rcases List.mem_filter.mp hp with ⟨hmem, hal⟩
      exact ⟨p.2, hmem, hal⟩
    · rintro ⟨st, hmem, hal⟩
      exact List.mem_map.mpr ⟨(a, st), List.mem_filter.mpr ⟨hmem, hal⟩, rfl⟩
  · have hsorted :
        List.Sorted (· ≤ ·) (r.aliveServers now).1 := by
      rw [aliveServers_fst]
      exact List.sorted_insertionSort _ _
    have hsub :
        ((r.servers.filter (fun p => aliveB r.timeout now p.2)).map Prod.fst).Sublist
          (r.servers.map Prod.fst) :=
      (List.filter_sublist _).map _
    have hnd2 : (r.aliveServers now).1.Nodup := by
      rw [aliveServers_fst]
      exact ((List.perm_insertionSort _ _).nodup_iff).mpr (hnd.sublist hsub)
    exact (hsorted.and hnd2).imp (fun hab => lt_of_le_of_ne hab.1 hab.2)
  · intro a st
    rw [aliveServers_snd, List.mem_filter]

/-- Witness for C5 on a concrete registry: at instant 12 only address `a`
is alive; `b` (stale since instant 0) is evicted. -/
theorem registry_get_alive_witness :
    (sampleRegistry.servers.map Prod.fst).Nodup ∧
    (sampleRegistry.aliveServers 12).1 = ["a".toList] ∧
    (sampleRegistry.aliveServers 12).2.servers = [("a".toList, 5)] ∧
    ((sampleRegistry.ServeHTTP 12 ("GET".toList) []).1 =
        .servers (goJoin ',' (sampleRegistry.aliveServers 12).1) ∧
      (sampleRegistry.ServeHTTP 12 ("GET".toList) []).2 = (sampleRegistry.aliveServers 12).2 ∧
      (∀ a, a ∈ (sampleRegistry.aliveServers 12).1 ↔
          ∃ st, (a, st) ∈ sampleRegistry.servers ∧ aliveB sampleRegistry.timeout 12 st = true) ∧
      List.Pairwise (· < ·) (sampleRegistry.aliveServers 12).1 ∧
      (∀ a st, (a, st) ∈ (sampleRegistry.aliveServers 12).2.servers ↔
          (a, st) ∈ sampleRegistry.servers ∧ aliveB sampleRegistry.timeout 12 st = true)) :=
  ⟨by decide, by decide, by decide, registry_get_alive sampleRegistry 12 [] (by decide)⟩

/-- `ZRegistryDiscovery.Get` forwards the refresh's `lastUpdate`,
`timeout` and performed-GET flag unchanged (the selection step only
touches `servers` and `index`). -/
theorem zrdGet_fields (d : ZRegistryDiscovery) (now : Nat) (g : Except GoStr GoStr)
    (mode : SelectMode) (rnd : Nat) :
    (d.Get now g mode rnd).1.lastUpdate = (d.Refresh now g).1.lastUpdate ∧
    (d.Get now g mode rnd).1.timeout = (d.Refresh now g).1.timeout ∧
    (d.Get now g mode rnd).2.2 = (d.Refresh now g).2.2 := by
  rcases hR : d.Refresh now g with ⟨d2, oe, gf⟩
  cases oe with
  | some e => simp [ZRegistryDiscovery.Get, hR]
  | none =>
    rcases hM : MultiServersDiscovery.Get ⟨d2.servers, d2.index⟩ mode rnd with e | sm
    · simp [ZRegistryDiscovery.Get, hR, hM]
    · rcases sm with ⟨s, m⟩
      simp [ZRegistryDiscovery.Get, hR, hM]

/-- C6 (amended): `Refresh` is a no-op returning nil without contacting
the registry while `last_update + refresh_interval > now`; otherwise it
performs one HTTP GET and, when that GET succeeds, replaces the server
list with the split/trimmed/non-empty pieces of `X-Zrpc-Servers` and sets
`last_update = now`; consequently two `Get` calls within
`refresh_interval`, the first of which does not suffer a GET failure,
cause at most one GET to the registry. -/
theorem refresh_noop_single_get (d : ZRegistryDiscovery) (t1 t2 rnd1 rnd2 : Nat)
    (hdr : GoStr) (http2 : Except GoStr GoStr) (mode1 mode2 : SelectMode)
    (hwin : t2 < t1 + d.timeout) :
    (∀ (now : Nat) (g : Except GoStr GoStr),
        now < d.lastUpdate + d.timeout → d.Refresh now g = (d, none, false)) ∧
    (∀ now : Nat, d.lastUpdate + d.timeout ≤ now →
        d.Refresh now (.ok hdr) =
          ({ d with servers := parseServerList hdr, lastUpdate := now }, none, true)) ∧
    ((cond (d.Get t1 (.ok hdr) mode1 rnd1).2.2 1 0 : Nat) +
        cond ((d.Get t1 (.ok hdr) mode1 rnd1).1.Get t2 http2 mode2 rnd2).2.2 1 0 ≤ 1) := by
  refine ⟨?_, ?_, ?_⟩
  · intro now g hlt
    simp [ZRegistryDiscovery.Refresh, hlt]
  · intro now hge
    simp [ZRegistryDiscovery.Refresh, Nat.not_lt.mpr hge]
  · obtain ⟨hLU, hTO, hGF⟩ := zrdGet_fields d t1 (.ok hdr) mode1 rnd1
    by_cases hfresh : t1 < d.lastUpdate + d.timeout
    · have hf : (d.Refresh t1 (.ok hdr)).2.2 = false := by
        simp [ZRegistryDiscovery.Refresh, hfresh]
      rw [hGF, hf]
      cases hg2 : ((d.Get t1 (.ok hdr) mode1 rnd1).1.Get t2 http2 mode2 rnd2).2.2 <;> simp
    · have hge : d.lastUpdate + d.timeout ≤ t1 := Nat.not_lt.mp hfresh
      have hRef : d.Refresh t1 (.ok hdr) =
          ({ d with servers := parseServerList hdr, lastUpdate := t1 }, none, true) := by
        simp [ZRegistryDiscovery.Refresh, Nat.not_lt.mpr hge]
      have h1LU : (d.Get t1 (.ok hdr) mode1 rnd1).1.lastUpdate = t1 := by
        rw [hLU, hRef]
      have h1TO : (d.Get t1 (.ok hdr) mode1 rnd1).1.timeout = d.timeout := by
        rw [hTO, hRef]
      obtain ⟨_, _, hGF2⟩ :=
        zrdGet_fields (d.Get t1 (.ok hdr) mode1 rnd1).1 t2 http2 mode2 rnd2
      have hfresh2 :
          t2 < (d.Get t1 (.ok hdr) mode1 rnd1).1.lastUpdate +
            (d.Get t1 (.ok hdr) mode1 rnd1).1.timeout := by
        rw [h1LU, h1TO]
        exact hwin
      have hf2 : ((d.Get t1 (.ok hdr) mode1 rnd1).1.Refresh t2 http2).2.2 = false := by
        simp [ZRegistryDiscovery.Refresh, hfresh2]
      rw [hGF2, hf2, hGF, hRef]
      simp

/-- Counterexample for C6 as stated: on a never-updated discovery with
interval 10, two `Get` calls at the same instant 10 both perform an HTTP
GET when the first GET fails (the failure leaves `lastUpdate` untouched),
so "at most one GET" is violated. -/
theorem refresh_two_gets_counterexample :
    (sampleZRD.Get 10 (.error ("connection refused".toList)) .RoundRobinSelect 0).2.2 = true ∧
    ((sampleZRD.Get 10 (.error ("connection refused".toList)) .RoundRobinSelect 0).1.Get 10
        (.error ("connection refused".toList)) .RoundRobinSelect 0).2.2 = true ∧
    ¬ ((cond (sampleZRD.Get 10 (.error ("connection refused".toList))
          .RoundRobinSelect 0).2.2 1 0 : Nat) +
        cond ((sampleZRD.Get 10 (.error ("connection refused".toList))
            .RoundRobinSelect 0).1.Get 10 (.error ("connection refused".toList))
          .RoundRobinSelect 0).2.2 1 0 ≤ 1) := by
  decide

/-- Witness for C6 (amended) at a concrete discovery: within the interval
the second call performs no GET. -/
theorem refresh_noop_single_get_witness :
    (10 : Nat) < 10 + sampleZRD.timeout ∧
    ((∀ (now : Nat) (g : Except GoStr GoStr),
        now < sampleZRD.lastUpdate + sampleZRD.timeout →
          sampleZRD.Refresh now g = (sampleZRD, none, false)) ∧
      (∀ now : Nat, sampleZRD.lastUpdate + sampleZRD.timeout ≤ now →
          sampleZRD.Refresh now (.ok (" a , ,b".toList)) =
            ({ sampleZRD with
                servers := parseServerList (" a , ,b".toList),
                lastUpdate := now }, none, true)) ∧
      ((cond (sampleZRD.Get 10 (.ok (" a , ,b".toList)) .RoundRobinSelect 0).2.2 1 0 : Nat) +
          cond ((sampleZRD.Get 10 (.ok (" a , ,b".toList)) .RoundRobinSelect 0).1.Get 10
            (.ok (" a , ,b".toList)) .RoundRobinSelect 0).2.2 1 0 ≤ 1)) :=
  ⟨by decide,
   refresh_noop_single_get sampleZRD 10 10 0 0 (" a , ,b".toList)
     (.ok (" a , ,b".toList)) .RoundRobinSelect .RoundRobinSelect (by decide)⟩

/-- C10: `Refresh` returns an error exactly when it is stale enough to
attempt the HTTP GET and that GET fails; a successful GET with an absent
or empty `X-Zrpc-Servers` header succeeds, replaces the server list with
the empty list and sets `last_update = now`, and a subsequent `Get`
within the next refresh interval returns the no-available-servers error
without contacting the registry again. -/
theorem refresh_error_iff (d : ZRegistryDiscovery) (now t2 : Nat)
    (hstale : d.lastUpdate + d.timeout ≤ now) (hwin : t2 < now + d.timeout) :
    (∀ (n : Nat) (g : Except GoStr GoStr),
        ((d.Refresh n g).2.1.isSome = true) ↔
          (d.lastUpdate + d.timeout ≤ n ∧ ∃ e, g = .error e)) ∧
    d.Refresh now (.ok []) = ({ d with servers := [], lastUpdate := now }, none, true) ∧
    (∀ (http2 : Except GoStr GoStr) (mode : SelectMode) (rnd : Nat),
        ZRegistryDiscovery.Get { d with servers := [], lastUpdate := now } t2 http2 mode rnd =
          ({ d with servers := [], lastUpdate := now }, .error noServersErr, false)) := by
  refine ⟨?_, ?_, ?_⟩
  · intro n g
    by_cases hf : n < d.lastUpdate + d.timeout
    · constructor
      · intro hcontra
        simp [ZRegistryDiscovery.Refresh, hf] at hcontra
      · rintro ⟨h1, -⟩
        omega
    · have hge : d.lastUpdate + d.timeout ≤ n := Nat.not_lt.mp hf
      cases g with
      | error e =>
        constructor
        · intro _
          exact ⟨hge, e, rfl⟩
        · intro _
          simp [ZRegistryDiscovery.Refresh, Nat.not_lt.mpr hge]
      | ok hdr =>
        constructor
        · intro hcontra
          simp [ZRegistryDiscovery.Refresh, Nat.not_lt.mpr hge] at hcontra
        · rintro ⟨-, e, he⟩
          exact absurd he (by simp)
  · have hp : parseServerList [] = [] := by decide
    simp [ZRegistryDiscovery.Refresh, Nat.not_lt.mpr hstale, hp]
  · intro http2 mode rnd
    have hfresh2 : t2 <
        ({ d with servers := ([] : List GoStr), lastUpdate := now } :
          ZRegistryDiscovery).lastUpdate +
        ({ d with servers := ([] : List GoStr), lastUpdate := now } :
          ZRegistryDiscovery).timeout := hwin
    simp [ZRegistryDiscovery.Get, ZRegistryDiscovery.Refresh, hfresh2,
      MultiServersDiscovery.Get]

/-- Witness for C10 at a concrete discovery: after a successful GET with
an empty header at instant 10, a `Get` at instant 11 fails with the
no-available-servers error and performs no GET. -/
theorem refresh_error_iff_witness :
    sampleZRD.lastUpdate + sampleZRD.timeout ≤ 10 ∧ (11 : Nat) < 10 + sampleZRD.timeout ∧
    ((∀ (n : Nat) (g : Except GoStr GoStr),
        ((sampleZRD.Refresh n g).2.1.isSome = true) ↔
          (sampleZRD.lastUpdate + sampleZRD.timeout ≤ n ∧ ∃ e, g = .error e)) ∧
      sampleZRD.Refresh 10 (.ok []) =
        ({ sampleZRD with servers := [], lastUpdate := 10 }, none, true) ∧
      (∀ (http2 : Except GoStr GoStr) (mode : SelectMode) (rnd : Nat),
          ZRegistryDiscovery.Get { sampleZRD with servers := [], lastUpdate := 10 }
              11 http2 mode rnd =
            ({ sampleZRD with servers := [], lastUpdate := 10 },
              .error noServersErr, false))) :=
  ⟨by decide, by decide, refresh_error_iff sampleZRD 10 11 (by decide) (by decide)⟩

/-- Every entry of `mapInsert m k v` either has key `k` or was already in
`m`. -/
theorem mapInsert_mem (m : List (Nat × Call)) (k : Nat) (v : Call) :
    ∀ q ∈ mapInsert m k v, q.1 = k ∨ q ∈ m := by
  intro q hq
  unfold mapInsert at hq
  split at hq
  · rcases List.mem_map.mp hq with ⟨p, hp, hqe⟩
    by_cases hpk : p.1 = k
    · rw [if_pos hpk] at hqe
      left
      rw [← hqe]
    · rw [if_neg hpk] at hqe
      right
      rw [← hqe]
      exact hp
  · rcases List.mem_append.mp hq with h | h
    · exact Or.inr h
    · left
      rw [List.mem_singleton.mp h]

/-- Successful `registerCall` returns the current counter and the state
with the call inserted and the counter incremented. -/
theorem registerCall_ok {c : Client} {call : Call} {s : Nat} {c2 : Client}
    (h : registerCall c call = .ok (s, c2)) :
    s = c.seq ∧
    c2 = { c with
            pending := mapInsert c.pending c.seq { call with Seq := c.seq },
            seq := c.seq + 1 } := by
  unfold registerCall at h
  split at h
  · simp at h
  · simp only [Except.ok.injEq, Prod.mk.injEq] at h
    exact ⟨h.1.symm, h.2.symm⟩

/-- One client transition never decreases the sequence counter. -/
theorem clientStep_seq_mono {c c2 : Client} (h : ClientStep c c2) : c.seq ≤ c2.seq := by
  cases h with
  | register call s c3 hreg =>
    rw [(registerCall_ok hreg).2]
    exact Nat.le_succ _
  | remove seq => exact Nat.le_refl _
  | terminate err => exact Nat.le_refl _
  | close c3 hcl =>
    unfold Client.Close at hcl
    split at hcl
    · simp at hcl
    · simp only [Except.ok.injEq] at hcl
      rw [← hcl]

/-- Reachability never decreases the sequence counter. -/
theorem clientReach_seq_mono {c c2 : Client} (h : ClientReach c c2) : c.seq ≤ c2.seq := by
  induction h with
  | refl => exact Nat.le_refl _
  | tail _ hbc ih => exact Nat.le_trans ih (clientStep_seq_mono hbc)

/-- Every client transition preserves the pending-below-counter
invariant. -/
theorem clientStep_inv {c c2 : Client} (hinv : ClientInv c) (h : ClientStep c c2) :
    ClientInv c2 := by
  obtain ⟨h1, h2⟩ := hinv
  cases h with
  | register call s c3 hreg =>
    rw [(registerCall_ok hreg).2]
    refine ⟨Nat.le_succ_of_le h1, ?_⟩
    intro p hp
    rcases mapInsert_mem _ _ _ p hp with hk | hm
    · simp only [hk]
      exact Nat.lt_succ_self _
    · exact Nat.lt_succ_of_lt (h2 p hm)
  | remove seq =>
    refine ⟨h1, ?_⟩
    intro p hp
    exact h2 p (List.mem_filter.mp hp).1
  | terminate err =>
    refine ⟨h1, ?_⟩
    intro p hp
    rcases List.mem_map.mp hp with ⟨q, hq, hqe⟩
    rw [← hqe]
    exact h2 q hq
  | close c3 hcl =>
    unfold Client.Close at hcl
    split at hcl
    · simp at hcl
    · simp only [Except.ok.injEq] at hcl
      rw [← hcl]
      exact ⟨h1, h2⟩

/-- Every client reachable from a fresh client satisfies the invariant. -/
theorem clientReach_inv {c : Client} (h : ClientReach newClientCodec c) : ClientInv c := by
  induction h with
  | refl => exact ⟨Nat.le_refl 1, by simp [newClientCodec]⟩
  | tail _ hbc ih => exact clientStep_inv ih hbc

/-- C3: the sequence counter starts at 1 (0 meaning invalid), each
successful `registerCall` assigns the current counter value and
increments it, a call registered before another gets a strictly smaller
sequence number, and in every reachable client state every key of
`pending` is strictly below the counter. -/
theorem client_seq_spec :
    newClientCodec.seq = 1 ∧
    (∀ (c : Client) (call : Call) (s : Nat) (c2 : Client),
        registerCall c call = .ok (s, c2) → s = c.seq ∧ c2.seq = c.seq + 1) ∧
    (∀ (c cA cB c2 : Client) (A B : Call) (sA sB : Nat),
        registerCall c A = .ok (sA, cA) → ClientReach cA cB →
        registerCall cB B = .ok (sB, c2) → sA < sB) ∧
    (∀ c : Client, ClientReach newClientCodec c → ∀ p ∈ c.pending, p.1 < c.seq) := by
  refine ⟨rfl, ?_, ?_, ?_⟩
  · intro c call s c2 h
    obtain ⟨hs, hc2⟩ := registerCall_ok h
    refine ⟨hs, ?_⟩
    rw [hc2]
  · intro c cA cB c2 A B sA sB hA hreach hB
    obtain ⟨hsA, hcA⟩ := registerCall_ok hA
    obtain ⟨hsB, -⟩ := registerCall_ok hB
    have hAseq : cA.seq = c.seq + 1 := by rw [hcA]
    have hmono : cA.seq ≤ cB.seq := clientReach_seq_mono hreach
    omega
  · intro c hreach
    exact (clientReach_inv hreach).2

/-- Witness for C3: two consecutive registrations on a fresh client get
sequence numbers 1 then 2, and the reached state satisfies the pending
invariant. -/
theorem client_seq_spec_witness :
    registerCall newClientCodec sampleCall = .ok (1, sampleC1) ∧
    registerCall sampleC1 sampleCall = .ok (2, sampleC2) ∧
    (1 : Nat) < 2 ∧
    (∀ p ∈ sampleC2.pending, p.1 < sampleC2.seq) := by
  refine ⟨by decide, by decide, ?_, ?_⟩
  · exact client_seq_spec.2.2.1 newClientCodec sampleC1 sampleC1 sampleC2
      sampleCall sampleCall 1 2 (by decide) Relation.ReflTransGen.refl (by decide)
  · exact client_seq_spec.2.2.2 sampleC2
      (Relation.ReflTransGen.head
        (ClientStep.register newClientCodec sampleCall 1 sampleC1 (by decide))
        (Relation.ReflTransGen.single
          (ClientStep.register sampleC1 sampleCall 2 sampleC2 (by decide))))

/-- Counterexample for C4 as stated: the receive loop exits with the read
error `EOF`; the pending call is completed with that error, not with
`ErrShutdown`, so the claim's "with ErrShutdown assigned as its error" is
false on this input. -/
theorem terminate_err_counterexample :
    (receiveRun c4Client [.headerErr ("EOF".toList)]).2.2 = some ("EOF".toList) ∧
    (receive c4Client [.headerErr ("EOF".toList)]).2 =
      [{ c4Call with Err := some ("EOF".toList) }] ∧
    ¬ (∀ cl ∈ (receive c4Client [.headerErr ("EOF".toList)]).2,
        cl.Err = some ErrShutdown) := by
  decide

/-- C4 (amended): when the receive loop exits with error `e`,
`terminateCalls` sets `shutdown`, every call remaining in `pending` is
completed exactly once with `e` (the loop's terminating error, not
`ErrShutdown`) assigned as its error and its done channel signalled, and
every later `registerCall` returns `ErrShutdown`. -/
theorem receive_terminate_spec (c c1 : Client) (evs : List ReadEvent)
    (outs : List Call) (e : GoStr)
    (hrun : receiveRun c evs = (c1, outs, some e)) :
    (receive c evs).1.shutdown = true ∧
    (receive c evs).2 = outs ++ c1.pending.map (fun p => { p.2 with Err := some e }) ∧
    (∀ s : Nat,
        (c1.pending.map (fun p => { p.2 with Err := some e })).countP
            (fun cl => cl.Seq = s) =
          c1.pending.countP (fun p => p.2.Seq = s)) ∧
    (∀ call2 : Call, registerCall (receive c evs).1 call2 = .error ErrShutdown) := by
  have hrec : receive c evs = ((terminateCalls c1 e).1, outs ++ (terminateCalls c1 e).2) := by
    unfold receive
    rw [hrun]
  refine ⟨?_, ?_, ?_, ?_⟩
  · rw [hrec]
    rfl
  · rw [hrec]
    rfl
  · intro s
    rw [List.countP_map]
    rfl
  · intro call2
    rw [hrec]
    simp [registerCall, terminateCalls]

/-- Witness for C4 (amended) at a concrete client: the loop exits with
`EOF`, the single pending call is signalled once with `EOF`, and a later
registration fails with `ErrShutdown`. -/
theorem receive_terminate_spec_witness :
    receiveRun c4Client [.headerErr ("EOF".toList)] =
      (c4Client, [], some ("EOF".toList)) ∧
    ((receive c4Client [.headerErr ("EOF".toList)]).1.shutdown = true ∧
      (receive c4Client [.headerErr ("EOF".toList)]).2 =
        [] ++ c4Client.pending.map (fun p => { p.2 with Err := some ("EOF".toList) }) ∧
      (∀ s : Nat,
          (c4Client.pending.map (fun p => { p.2 with Err := some ("EOF".toList) })).countP
              (fun cl => cl.Seq = s) =
            c4Client.pending.countP (fun p => p.2.Seq = s)) ∧
      (∀ call2 : Call,
          registerCall (receive c4Client [.headerErr ("EOF".toList)]).1 call2 =
            .error ErrShutdown)) :=
  ⟨by decide,
   receive_terminate_spec c4Client c4Client [.headerErr ("EOF".toList)] []
     ("EOF".toList) (by decide)⟩

/-- `rrNth` is a plain list index once the position is in bounds. -/
theorem rrNth_eq_get (servers : List GoStr) (idx i : Nat)
    (h : (idx + i) % servers.length < servers.length) :
    rrNth servers idx i = servers.get ⟨(idx + i) % servers.length, h⟩ := by
  unfold rrNth
  rw [List.getD_eq_get?, List.get?_eq_get h]
  rfl

/-- Advancing the start index by one modulo the length shifts `rrNth` by
one step. -/
theorem rrNth_succ (servers : List GoStr) (idx i : Nat) :
    rrNth servers ((idx + 1) % servers.length) i = rrNth servers idx (i + 1) := by
  unfold rrNth
  congr 1
  rw [Nat.mod_add_mod]
  congr 1
  omega

/-- The trace of `m` consecutive round-robin `Get` calls is the pointwise
rotation `servers[(idx + i) % n]`, i.e. stable rotation order. -/
theorem rrRun_trace (servers : List GoStr) (hpos : 0 < servers.length) :
    ∀ (m idx : Nat), (rrRun m ⟨servers, idx⟩).1 = (List.range m).map (rrNth servers idx) := by
  intro m
  induction m with
  | zero => intro idx; rfl
  | succ m ih =>
    intro idx
    have hne : ¬ servers.length = 0 := Nat.pos_iff_ne_zero.mp hpos
    have hstep : MultiServersDiscovery.Get ⟨servers, idx⟩ .RoundRobinSelect 0 =
        .ok (servers.get ⟨idx % servers.length, Nat.mod_lt _ hpos⟩,
             ⟨servers, (idx + 1) % servers.length⟩) := by
      unfold MultiServersDiscovery.Get
      rw [dif_neg hne]
    simp only [rrRun, hstep]
    rw [ih ((idx + 1) % servers.length)]
    rw [List.range_succ_eq_map, List.map_cons, List.map_map]
    congr 1
    · rw [rrNth_eq_get servers idx 0 (by simpa using Nat.mod_lt idx hpos)]
      congr 1
    · refine List.map_congr_left ?_
      intro i _
      rw [rrNth_succ]
      rfl

/-- One block of `n` consecutive round-robin answers is a rotation of the
server list. -/
theorem rrBlock_rotate (servers : List GoStr) (hpos : 0 < servers.length) (c : Nat) :
    (List.range servers.length).map (rrNth servers c) = servers.rotate c := by
  apply List.ext_get
  · simp [List.length_rotate]
  · intro i h1 h2
    have hi : i < servers.length := by simpa using h1
    have hlt : (c + i) % servers.length < servers.length := Nat.mod_lt _ hpos
    rw [List.get_map, List.get_range, rrNth_eq_get servers c i hlt, List.get_rotate]
    congr 1
    exact Fin.ext (by simp [Nat.add_comm])


/-- Each address of a duplicate-free server list appears exactly once in
one block of `n` consecutive round-robin answers. -/
theorem rrBlock_count (servers : List GoStr) (hpos : 0 < servers.length) (c : Nat)
    (hnd : servers.Nodup) (a : GoStr) (ha : a ∈ servers) :
    ((List.range servers.length).map (rrNth servers c)).count a = 1 := by
  rw [rrBlock_rotate servers hpos c]
  rw [(List.rotate_perm servers c).count_eq]
  exact List.count_eq_one_of_mem hnd ha

/-- Over `k` blocks of `n` consecutive round-robin answers, each address
of a duplicate-free server list appears exactly `k` times. -/
theorem rrCount (servers : List GoStr) (hpos : 0 < servers.length)
    (hnd : servers.Nodup) (idx : Nat) (a : GoStr) (ha : a ∈ servers) :
    ∀ k : Nat,
      ((List.range (k * servers.length)).map (rrNth servers idx)).count a = k := by
  intro k
  induction k with
  | zero => simp
  | succ k ih =>
    have hsplit : (k + 1) * servers.length = k * servers.length + servers.length := by
      ring
    rw [hsplit, List.range_add, List.map_append, List.count_append, ih, List.map_map]
    have heq : ∀ i ∈ List.range servers.length,
        (rrNth servers idx ∘ fun i => k * servers.length + i) i = rrNth servers idx i := by
      intro i _
      show rrNth servers idx (k * servers.length + i) = rrNth servers idx i
      unfold rrNth
      congr 1
      have h2 : idx + (k * servers.length + i) = idx + i + k * servers.length := by ring
      rw [h2, Nat.add_mul_mod_self_right]
    rw [List.map_congr_left heq, rrBlock_count servers hpos idx hnd a ha]

/-- C7: on a fixed non-empty duplicate-free list of `n` addresses,
`Get(RoundRobin)` returns `servers[index % n]` and then sets
`index = (index + 1) % n`; over `k * n` consecutive round-robin `Get`
calls the answers follow stable rotation order
`servers[(index + i) % n]`, and each address is returned exactly `k`
times. -/
theorem round_robin_spec (servers : List GoStr) (idx k rnd : Nat)
    (hpos : 0 < servers.length) (hnd : servers.Nodup) :
    MultiServersDiscovery.Get ⟨servers, idx⟩ .RoundRobinSelect rnd =
      .ok (servers.get ⟨idx % servers.length, Nat.mod_lt _ hpos⟩,
           ⟨servers, (idx + 1) % servers.length⟩) ∧
    (rrRun (k * servers.length) ⟨servers, idx⟩).1 =
      (List.range (k * servers.length)).map (rrNth servers idx) ∧
    (∀ a ∈ servers, (rrRun (k * servers.length) ⟨servers, idx⟩).1.count a = k) := by
  refine ⟨?_, rrRun_trace servers hpos _ idx, ?_⟩
  · unfold MultiServersDiscovery.Get
    rw [dif_neg (Nat.pos_iff_ne_zero.mp hpos)]
  · intro a ha
    rw [rrRun_trace servers hpos _ idx]
    exact rrCount servers hpos hnd idx a ha k

/-- Witness for C7 on three addresses and `k = 2`: six calls return each
address exactly twice in rotation order. -/
theorem round_robin_spec_witness :
    (0 : Nat) < (["a".toList, "b".toList, "c".toList] : List GoStr).length ∧
    (["a".toList, "b".toList, "c".toList] : List GoStr).Nodup ∧
    (rrRun 6 ⟨["a".toList, "b".toList, "c".toList], 0⟩).1 =
      ["a".toList, "b".toList, "c".toList, "a".toList, "b".toList, "c".toList] ∧
    (∀ a ∈ (["a".toList, "b".toList, "c".toList] : List GoStr),
        (rrRun (2 * 3) ⟨["a".toList, "b".toList, "c".toList], 0⟩).1.count a = 2) :=
  ⟨by decide, by decide, by decide,
   (round_robin_spec ["a".toList, "b".toList, "c".toList] 0 2 0
     (by decide) (by decide)).2.2⟩


/-- C1 (code evidence): on a connection carrying a first request for an
unknown service followed by a well-formed second request, the serve loop
sends the error response on the first request's seq, but `readRequest`
returned without consuming the first request's body frame, so the next
header read hits that stale body frame, fails, and ends the loop: the
second request is never served.  The same stream shape with both requests
well-formed serves both. -/
theorem serve_unknown_service_desync :
    serveCodec arithMap c1Conn = ([c1ErrResp], []) ∧
    c1ErrResp.h.Seq = c1Header1.Seq ∧
    serveCodec arithMap c1ConnGood = ([], [c1Header2, c1Header2]) := by
  decide

/-- Along any run of the handle-timeout machine, while the parent still
sits at the select nothing has been sent and the handler goroutine has
not yet passed the `called` rendezvous. -/
theorem hr_select_state (h : Header) (d : GoStr) (herr : Option GoStr) :
    ∀ s, HRReach h d herr hrInit s → s.main = .select →
      s.sent = [] ∧ (s.goro = .start ∨ s.goro = .calledSend) := by
  intro s hreach
  induction hreach with
  | refl => intro _; exact ⟨rfl, Or.inl rfl⟩
  | tail _ hbc ih =>
    intro hsel
    cases hbc with
    | callReturns m r =>
      have hm : m = .select := hsel
      obtain ⟨hsent, -⟩ := ih hm
      exact ⟨hsent, Or.inr rfl⟩
    | rendezvousCalled r => exact absurd hsel (by simp)
    | timerFires g r => exact absurd hsel (by simp)
    | goroutineSends m r =>
      have hm : m = .select := hsel
      obtain ⟨-, hgo⟩ := ih hm
      rcases hgo with hg | hg <;> exact absurd hg (by simp)
    | rendezvousSent r => exact absurd hsel (by simp)

/-- After the parent has returned while the goroutine has not passed the
`called` rendezvous, one step changes neither the responses nor the
parent, and the goroutine stays before the rendezvous (it is blocked on
the unbuffered `called` channel forever). -/
theorem hr_done_inv (h : Header) (d : GoStr) (herr : Option GoStr) (r : List Response) :
    ∀ s t, HRStep h d herr s t →
      s.main = .done → s.sent = r → (s.goro = .start ∨ s.goro = .calledSend) →
      t.main = .done ∧ t.sent = r ∧ (t.goro = .start ∨ t.goro = .calledSend) := by
  intro s t hst
  cases hst with
  | callReturns m r2 =>
    intro h1 h2 _
    exact ⟨h1, h2, Or.inr rfl⟩
  | rendezvousCalled r2 => intro h1; exact absurd h1 (by simp)
  | timerFires g r2 => intro h1; exact absurd h1 (by simp)
  | goroutineSends m r2 =>
    intro _ _ h3
    rcases h3 with hg | hg <;> exact absurd hg (by simp)
  | rendezvousSent r2 => intro h1; exact absurd h1 (by simp)

/-- The detached-goroutine invariant is preserved along any number of
steps. -/
theorem hr_done_reach (h : Header) (d : GoStr) (herr : Option GoStr) (r : List Response) :
    ∀ s t, HRReach h d herr s t →
      s.main = .done → s.sent = r → (s.goro = .start ∨ s.goro = .calledSend) →
      t.main = .done ∧ t.sent = r ∧ (t.goro = .start ∨ t.goro = .calledSend) := by
  intro s t hreach
  induction hreach with
  | refl => intro h1 h2 h3; exact ⟨h1, h2, h3⟩
  | tail _ hbc ih =>
    intro h1 h2 h3
    obtain ⟨hb1, hb2, hb3⟩ := ih h1 h2 h3
    exact hr_done_inv h d herr r _ _ hbc hb1 hb2 hb3

/-- C2: with `handle_timeout = T > 0`, in every run where the timer wins
the race against the handler's `called` notification, the timer
transition is enabled and sends exactly one error response, carrying
`"rpc server: request handle timeout: expect within <T>"`; the parent is
already returned (it waits for neither `called` nor `sent`), and in every
subsequent state the responses are still exactly that one error response:
the detached handler never writes a response for this request. -/
theorem handle_timeout_spec (h : Header) (d : GoStr) (herr : Option GoStr) (s t : HRState)
    (hreach : HRReach h d herr hrInit s) (hsel : s.main = .select)
    (hafter : HRReach h d herr ⟨.done, s.goro, s.sent ++ [timeoutResp h d]⟩ t) :
    HRStep h d herr s ⟨.done, s.goro, s.sent ++ [timeoutResp h d]⟩ ∧
    t.main = .done ∧
    t.sent = [timeoutResp h d] ∧
    (timeoutResp h d).h.Error = timeoutErrMsg d := by
  obtain ⟨hsent, hgoro⟩ := hr_select_state h d herr s hreach hsel
  refine ⟨?_, ?_⟩
  · rcases s with ⟨ms, gs, rs⟩
    have hm : ms = .select := hsel
    subst hm
    exact HRStep.timerFires gs rs
  · obtain ⟨h1, h2, -⟩ :=
      hr_done_reach h d herr (s.sent ++ [timeoutResp h d]) _ t hafter rfl rfl hgoro
    refine ⟨h1, ?_, rfl⟩
    rw [h2, hsent]
    simp

/-- Witness for C2: from the initial state, the timer fires at once; the
resulting run has exactly the single timeout error response. -/
theorem handle_timeout_spec_witness :
    HRReach hrHeader ("100ms".toList) none hrInit hrInit ∧
    hrInit.main = .select ∧
    (HRStep hrHeader ("100ms".toList) none hrInit
        ⟨.done, hrInit.goro, hrInit.sent ++ [timeoutResp hrHeader ("100ms".toList)]⟩ ∧
      (⟨.done, .start, [timeoutResp hrHeader ("100ms".toList)]⟩ : HRState).main = .done ∧
      (⟨.done, .start, [timeoutResp hrHeader ("100ms".toList)]⟩ : HRState).sent =
        [timeoutResp hrHeader ("100ms".toList)] ∧
      (timeoutResp hrHeader ("100ms".toList)).h.Error = timeoutErrMsg ("100ms".toList)) :=
  ⟨Relation.ReflTransGen.refl, rfl,
   handle_timeout_spec hrHeader ("100ms".toList) none hrInit
     ⟨.done, .start, [timeoutResp hrHeader ("100ms".toList)]⟩
     Relation.ReflTransGen.refl rfl Relation.ReflTransGen.refl⟩

end ZRPC
